import Mathlib

/-!
Verification development for a KiCad S-expression toolkit (tokenizer,
recursive-descent tree parser, tree query helpers, canonical writer, and the
typed symbol-library / schematic domain mapping layer).

Modelling conventions:
* Python strings are `String` / `List Char`; machine floats are modelled as `ℚ`
  (every numeric literal exercised here is exact at six decimal digits, so
  decimal formatting and parsing agree with the Python float behaviour).
* Fallible Python code returns `Except`; an uncaught Python exception (for
  example `float("z")` raising `ValueError`) is modelled as the error channel
  of `Except String`, and the top-level decoder result type `PyResult`
  distinguishes a returned `Err` value from an escaped exception.
* Loops whose consumption is not structurally decreasing carry a `Nat` fuel
  argument so that they are structurally recursive and kernel-reducible; the
  public wrappers pass fuel strictly larger than any possible number of loop
  iterations, so the fuel-exhaustion branches are unreachable.
-/

namespace Kicad

/-- Error during S-expression parsing (message, 1-indexed line/column). -/
structure ParseError where
  message : String
  line : Nat
  column : Nat
deriving DecidableEq

/-- Token kinds produced by the tokenizer. -/
inductive TokenType where
  | LPAREN
  | RPAREN
  | STRING
  | ATOM
deriving DecidableEq

/-- A lexical token with its 1-indexed source position. -/
structure Token where
  type : TokenType
  value : String
  line : Nat
  column : Nat
deriving DecidableEq

/-- Generic S-expression value: an atom (untyped text) or an ordered list. -/
inductive SExpr where
  | atom (s : String)
  | list (xs : List SExpr)

/-- Line update for consuming one character (mirrors `Tokenizer._advance`). -/
def advLine (ch : Char) (l : Nat) : Nat :=
  if ch = '\n' then l + 1 else l

/-- Column update for consuming one character (mirrors `Tokenizer._advance`). -/
def advCol (ch : Char) (c : Nat) : Nat :=
  if ch = '\n' then 1 else c + 1

/-- Position after consuming a whole character list. -/
def posAfter : List Char → Nat → Nat → Nat × Nat
  | [], l, c => (l, c)
  | ch :: rest, l, c => posAfter rest (advLine ch l) (advCol ch c)

/-- Whitespace characters skipped by the tokenizer. -/
def isWsChar (ch : Char) : Bool :=
  ch == ' ' || ch == '\t' || ch == '\n' || ch == '\r'

/-- `Tokenizer._skip_whitespace`: skips whitespace and `;` line comments.
The `Bool` flag is true while inside a comment (the source expresses this as
an inner loop advancing to the end of the line; the newline itself is then
consumed by the outer whitespace loop, which this single scan reproduces). -/
def skipWs : Bool → List Char → Nat → Nat → List Char × Nat × Nat
  | _, [], l, c => ([], l, c)
  | false, ch :: rest, l, c =>
    if isWsChar ch then skipWs false rest (advLine ch l) (advCol ch c)
    else if ch = ';' then skipWs true rest l (c + 1)
    else (ch :: rest, l, c)
  | true, ch :: rest, l, c =>
    if ch = '\n' then skipWs false rest (l + 1) 1
    else skipWs true rest l (c + 1)

/-- `Tokenizer._read_string` after the opening quote has been consumed.
`startLine`/`startCol` are the opening quote's position; `acc` holds the
decoded characters in reverse.  Returns the token, the remaining input and
the position after the closing quote. -/
def readStringLoop (startLine startCol : Nat) :
    List Char → Nat → Nat → List Char → Except ParseError (Token × List Char × Nat × Nat)
  | [], _, _, _ => .error ⟨"Unterminated string", startLine, startCol⟩
  | ch :: rest, l, c, acc =>
    if ch = '"' then
      .ok (⟨.STRING, String.mk acc.reverse, startLine, startCol⟩,
        rest, advLine ch l, advCol ch c)
    else if ch = '\\' then
      match rest with
      | [] => .error ⟨"Unterminated string", startLine, startCol⟩
      | e :: rest' =>
        let decoded :=
          if e = 'n' then '\n'
          else if e = 't' then '\t'
          else if e = 'r' then '\r'
          else e
        readStringLoop startLine startCol rest'
          (advLine e (advLine ch l)) (advCol e (advCol ch c)) (decoded :: acc)
    else
      readStringLoop startLine startCol rest (advLine ch l) (advCol ch c) (ch :: acc)

/-- Specification-side predicate: a character sequence following an opening
quote reaches end of input before an unescaped closing quote (the text's
quoted string is unterminated). -/
def unterminated : List Char → Bool
  | [] => true
  | ch :: rest =>
    if ch = '"' then false
    else if ch = '\\' then
      match rest with
      | [] => true
      | _ :: rest' => unterminated rest'
    else unterminated rest

/-- Characters that terminate an unquoted atom. -/
def isAtomStop (ch : Char) : Bool :=
  isWsChar ch || ch == '(' || ch == ')' || ch == '"'

/-- `Tokenizer._read_atom` body: consume characters until an atom stop.
`acc` holds consumed characters in reverse.  Returns remaining input, the
position after the atom, and the accumulated characters. -/
def readAtomLoop : List Char → Nat → Nat → List Char → List Char × Nat × Nat × List Char
  | [], l, c, acc => ([], l, c, acc)
  | ch :: rest, l, c, acc =>
    if isAtomStop ch then (ch :: rest, l, c, acc)
    else readAtomLoop rest (advLine ch l) (advCol ch c) (ch :: acc)

/-- `Tokenizer.tokenize` main loop.  One fuel unit per iteration; every
iteration consumes at least one character, so fuel `length + 1` suffices. -/
def tokenizeLoop : Nat → List Char → Nat → Nat → Except ParseError (List Token)
  | 0, _, _, _ => .error ⟨"Tokenizer fuel exhausted", 0, 0⟩
  | fuel + 1, s, l, c =>
    match skipWs false s l c with
    | (s₁, l₁, c₁) =>
      match s₁ with
      | [] => .ok []
      | ch :: rest =>
        if ch = '(' then
          match tokenizeLoop fuel rest l₁ (c₁ + 1) with
          | .error e => .error e
          | .ok ts => .ok (⟨.LPAREN, "(", l₁, c₁⟩ :: ts)
        else if ch = ')' then
          match tokenizeLoop fuel rest l₁ (c₁ + 1) with
          | .error e => .error e
          | .ok ts => .ok (⟨.RPAREN, ")", l₁, c₁⟩ :: ts)
        else if ch = '"' then
          match readStringLoop l₁ c₁ rest (advLine ch l₁) (advCol ch c₁) [] with
          | .error e => .error e
          | .ok (tok, rest', l', c') =>
            match tokenizeLoop fuel rest' l' c' with
            | .error e => .error e
            | .ok ts => .ok (tok :: ts)
        else
          -- atom: the dispatch character is consumed by `_read_atom`'s first
          -- iteration (it is not a stop character in this branch)
          match readAtomLoop rest (advLine ch l₁) (advCol ch c₁) [ch] with
          | (rest', l', c', acc) =>
            match tokenizeLoop fuel rest' l' c' with
            | .error e => .error e
            | .ok ts => .ok (⟨.ATOM, String.mk acc.reverse, l₁, c₁⟩ :: ts)

/-- `Tokenizer.tokenize`: tokenize a whole input string. -/
def tokenize (text : String) : Except ParseError (List Token) :=
  tokenizeLoop (text.data.length + 1) text.data 1 1

/-- Parser mode: `expr` is `Parser._parse_expr`, `list` is `Parser._parse_list`
(with the opening paren's token and the items accumulated so far). -/
inductive PMode where
  | expr
  | list (startTok : Token) (acc : List SExpr)

/-- Combined recursive-descent parser (`Parser._parse_expr` / `_parse_list`),
written as one function structurally recursive on fuel.  Each call site of the
source's mutual recursion spends one fuel unit; `2 * tokens + 2` suffices. -/
def parseGo : Nat → PMode → List Token → Except ParseError (SExpr × List Token)
  | 0, _, _ => .error ⟨"Parser fuel exhausted", 0, 0⟩
  | fuel + 1, .expr, ts =>
    match ts with
    | [] => .error ⟨"Unexpected end of input", 0, 0⟩
    | t :: rest =>
      match t.type with
      | .LPAREN => parseGo fuel (.list t []) rest
      | .RPAREN => .error ⟨"Unexpected closing paren", t.line, t.column⟩
      | _ => .ok (.atom t.value, rest)
  | fuel + 1, .list startTok acc, ts =>
    match ts with
    | [] => .error ⟨"Unexpected end of input in list", startTok.line, startTok.column⟩
    | t :: rest =>
      match t.type with
      | .RPAREN => .ok (.list acc.reverse, rest)
      | _ =>
        match parseGo fuel .expr (t :: rest) with
        | .error e => .error e
        | .ok (e, rest') => parseGo fuel (.list startTok (e :: acc)) rest'

/-- `Parser._parse_expr` entry point. -/
def parseExpr (fuel : Nat) (ts : List Token) : Except ParseError (SExpr × List Token) :=
  parseGo fuel .expr ts

/-- `Parser.parse`: one expression, then reject trailing tokens. -/
def parserParse (tokens : List Token) : Except ParseError SExpr :=
  match parseExpr (2 * tokens.length + 2) tokens with
  | .error e => .error e
  | .ok (e, rest) =>
    match rest with
    | [] => .ok e
    | t :: _ =>
      .error ⟨"Unexpected token after expression: " ++ t.value, t.line, t.column⟩

/-- `parse_sexpr`: tokenize then parse a single top-level expression. -/
def parse_sexpr (text : String) : Except ParseError SExpr :=
  match tokenize text with
  | .error e => .error e
  | .ok tokens => parserParse tokens

/-- `sexpr_get`: first direct child list whose head equals `key`.
The Python comparison `item[0] == key` is a string comparison, false whenever
the head is itself a list, which the inner match reproduces. -/
def sexpr_get (expr : SExpr) (key : String) : Option SExpr :=
  match expr with
  | .atom _ => none
  | .list xs =>
    xs.find? (fun item =>
      match item with
      | .list (.atom y :: _) => y == key
      | _ => false)

/-- `sexpr_get_all`: all direct child lists whose head equals `key`, in order.
The source annotates the result as a list of `SExprList`, so the children's
item lists are returned. -/
def sexpr_get_all (expr : SExpr) (key : String) : List (List SExpr) :=
  match expr with
  | .atom _ => []
  | .list xs =>
    xs.filterMap (fun item =>
      match item with
      | .list (.atom y :: ys) => if y == key then some (.atom y :: ys) else none
      | _ => none)

/-- `sexpr_get_value`: the second element of a matched `(key v)` child, when
it is an atom. -/
def sexpr_get_value (expr : SExpr) (key : String) : Option String :=
  match sexpr_get expr key with
  | some (.list (_ :: .atom v :: _)) => some v
  | _ => none

/-- Python `int(s)`: optional surrounding ASCII whitespace, optional sign,
one or more decimal digits.  Returns `none` where Python raises
`ValueError`.  (Digit-group underscores never occur in the inputs handled
here because the scanned segments contain no underscore.) -/
def pyInt (s : String) : Option Int :=
  let cs := (s.data.dropWhile (fun ch => isWsChar ch)).reverse.dropWhile
    (fun ch => isWsChar ch) |>.reverse
  let (sign, ds) : Int × List Char :=
    match cs with
    | '-' :: r => (-1, r)
    | '+' :: r => (1, r)
    | r => (1, r)
  if ds ≠ [] ∧ ds.all (fun ch => ch.isDigit) then
    some (sign * (ds.foldl (fun acc ch => 10 * acc + (ch.toNat - '0'.toNat)) 0 : Nat))
  else none

/-- Decimal value of a digit list. -/
def digitsVal (ds : List Char) : Nat :=
  ds.foldl (fun acc ch => 10 * acc + (ch.toNat - '0'.toNat)) 0

/-- Python `float(s)` restricted to the fixed-point grammar
`[ws][sign]digits[.digits] / [sign].digits[ws]` actually exercised by this
format (no exponents, infinities or NaNs occur in these files; every literal
is exact in binary-float round trip at this precision).  Returns `none`
where Python raises `ValueError`. -/
def pyFloat (s : String) : Option ℚ :=
  let cs := (s.data.dropWhile (fun ch => isWsChar ch)).reverse.dropWhile
    (fun ch => isWsChar ch) |>.reverse
  let (neg, ds) : Bool × List Char :=
    match cs with
    | '-' :: r => (true, r)
    | '+' :: r => (false, r)
    | r => (false, r)
  let ip := ds.takeWhile (fun ch => ch != '.')
  let rest := ds.dropWhile (fun ch => ch != '.')
  let fp := match rest with
    | '.' :: r => r
    | r => r
  if (ip ≠ [] ∨ fp ≠ []) ∧ ip.all (fun ch => ch.isDigit) ∧ fp.all (fun ch => ch.isDigit) then
    let num : Int := (digitsVal ip * 10 ^ fp.length + digitsVal fp : Nat)
    some (mkRat (if neg then -num else num) (10 ^ fp.length))
  else none

/-- `sexpr_get_float`: parse a `(key v)` value as a float, `none` on failure. -/
def sexpr_get_float (expr : SExpr) (key : String) : Option ℚ :=
  match sexpr_get_value expr key with
  | some v => pyFloat v
  | none => none

/-- `sexpr_get_int`: parse a `(key v)` value as an integer, `none` on failure. -/
def sexpr_get_int (expr : SExpr) (key : String) : Option Int :=
  match sexpr_get_value expr key with
  | some v => pyInt v
  | none => none

/-- `sexpr_has_flag`: Python `flag in expr` — true iff some direct child is
the bare atom `flag`. -/
def sexpr_has_flag (expr : SExpr) (flag : String) : Bool :=
  match expr with
  | .atom _ => false
  | .list xs =>
    xs.any (fun item =>
      match item with
      | .atom a => a == flag
      | .list _ => false)

/-! ## S-expression writer (`writer/sexpr_writer.py`) -/

/-- `_needs_quoting`: empty strings and strings containing whitespace, a
quote or a paren must be quoted. -/
def needs_quoting (s : String) : Bool :=
  s.data.isEmpty || s.data.any (fun ch =>
    ch == ' ' || ch == '\t' || ch == '\n' || ch == '\r' || ch == '"' ||
    ch == '(' || ch == ')')

/-- `_escape_string` per character. -/
def escapeChar (ch : Char) : List Char :=
  if ch = '"' then ['\\', '"']
  else if ch = '\\' then ['\\', '\\']
  else if ch = '\n' then ['\\', 'n']
  else if ch = '\r' then ['\\', 'r']
  else if ch = '\t' then ['\\', 't']
  else [ch]

/-- `_escape_string` over a character list. -/
def escapeList : List Char → List Char
  | [] => []
  | ch :: rest => escapeChar ch ++ escapeList rest

/-- `_escape_string`: escape a string for quoted output. -/
def escape_string (s : String) : String :=
  String.mk (escapeList s.data)

/-- `_format_atom`: quote-and-escape an atom when needed. -/
def format_atom (atom : String) : String :=
  if needs_quoting atom then "\"" ++ escape_string atom ++ "\"" else atom

/-- The writer's default always-inline key set (`compact_keys`). -/
def writer_compact_keys : List String :=
  ["at", "xy", "start", "end", "size", "stroke", "fill",
   "font", "justify", "color", "pts", "version", "generator"]

/-- The writer's default `max_inline_length`. -/
def writer_max_inline : Nat := 80

/-- The writer's default indentation unit. -/
def writer_indent_unit : String := "  "

/-- Whether an expression is an atom (Python `isinstance(x, str)`). -/
def isAtomE : SExpr → Bool
  | .atom _ => true
  | .list _ => false

mutual

/-- `SExprWriter._write_inline`: render without newlines. -/
def write_inline : SExpr → String
  | .atom s => format_atom s
  | .list xs => "(" ++ String.intercalate " " (write_inlineL xs) ++ ")"

/-- Inline renderings of a list's children, in order. -/
def write_inlineL : List SExpr → List String
  | [] => []
  | x :: xs => write_inline x :: write_inlineL xs

end

/-- `SExprWriter._should_inline` with the default configuration.  The
source's `try/except` around the speculative inline rendering is dead code
(pure string building cannot raise) and is dropped. -/
def should_inline (expr : SExpr) : Bool :=
  match expr with
  | .atom _ => true
  | .list xs =>
    if xs.isEmpty then true
    else if (match xs with
             | .atom k :: _ => writer_compact_keys.contains k
             | _ => false) then true
    else if xs.length == 2 && xs.all isAtomE then true
    else
      let inline := write_inline expr
      if inline.length ≤ writer_max_inline then
        if xs.all isAtomE then true
        else if xs.length ≤ 3 then true
        else false
      else false

/-- `str * n` repetition for indentation. -/
def strRepeat (s : String) (n : Nat) : String :=
  String.join (List.replicate n s)

mutual

/-- `SExprWriter._write_expr`: inline-vs-multiline canonical formatting. -/
def write_expr : SExpr → Nat → String
  | .atom s, _ => format_atom s
  | .list xs, depth =>
    if xs.isEmpty then "()"
    else if should_inline (.list xs) then write_inline (.list xs)
    else
      match xs with
      | [] => "()"
      | x :: rest =>
        "(" ++ write_expr x depth ++ write_exprTail rest (depth + 1) ++
        "\n" ++ strRepeat writer_indent_unit depth ++ ")"

/-- The non-head children of a multiline list, each on its own indented
line. -/
def write_exprTail : List SExpr → Nat → String
  | [], _ => ""
  | item :: rest, depth =>
    "\n" ++ strRepeat writer_indent_unit depth ++ write_expr item depth ++
    write_exprTail rest depth

end

/-- `SExprWriter.write` / `write_sexpr` with default settings: format the
expression and append the final newline. -/
def write_sexpr (expr : SExpr) : String :=
  write_expr expr 0 ++ "\n"

/-- Strip all trailing occurrences of one character (Python `rstrip`). -/
def rstripChar (c : Char) (s : String) : String :=
  String.mk ((s.data.reverse.dropWhile (fun ch => ch == c)).reverse)

/-- `format_number`: fixed six-decimal rendering, then strip trailing zeros
and the trailing point, and normalize `-0` to `0`.  `n` is the numerator of
`|v|` scaled by `10^6` and rounded to nearest (every value in this format is
exact at six decimals, so the rounding never actually discards anything and
the tie direction is immaterial). -/
def format_number (v : ℚ) : String :=
  let neg := v.num < 0
  let n : Nat := (v.num.natAbs * 1000000 * 2 + v.den) / (2 * v.den)
  let fracStr := Nat.repr (n % 1000000)
  let base := (if neg then "-" else "") ++ Nat.repr (n / 1000000) ++ "." ++
    String.mk (List.replicate (6 - fracStr.length) '0') ++ fracStr
  let stripped := rstripChar '.' (rstripChar '0' base)
  if stripped = "-0" then "0" else stripped

/-! ## Enumerations (`types/enums.py`) -/

/-- ASCII lower-casing (Python `str.lower`; the enum vocabularies are pure
ASCII). -/
def pyLower (s : String) : String :=
  String.mk (s.data.map Char.toLower)

/-- Electrical type of a symbol pin. -/
inductive PinElectricalType where
  | INPUT
  | OUTPUT
  | BIDIRECTIONAL
  | TRI_STATE
  | PASSIVE
  | FREE
  | UNSPECIFIED
  | POWER_IN
  | POWER_OUT
  | OPEN_COLLECTOR
  | OPEN_EMITTER
  | NO_CONNECT
deriving DecidableEq

/-- The KiCad string of a `PinElectricalType` (the enum member's value). -/
def PinElectricalType.value : PinElectricalType → String
  | .INPUT => "input"
  | .OUTPUT => "output"
  | .BIDIRECTIONAL => "bidirectional"
  | .TRI_STATE => "tri_state"
  | .PASSIVE => "passive"
  | .FREE => "free"
  | .UNSPECIFIED => "unspecified"
  | .POWER_IN => "power_in"
  | .POWER_OUT => "power_out"
  | .OPEN_COLLECTOR => "open_collector"
  | .OPEN_EMITTER => "open_emitter"
  | .NO_CONNECT => "no_connect"

/-- `PinElectricalType.from_string`: total lookup with `UNSPECIFIED`
fallback (`mapping.get(s.lower(), cls.UNSPECIFIED)`) — it never raises. -/
def PinElectricalType.from_string (s : String) : PinElectricalType :=
  let t := pyLower s
  if t = "input" then .INPUT
  else if t = "output" then .OUTPUT
  else if t = "bidirectional" then .BIDIRECTIONAL
  else if t = "tri_state" then .TRI_STATE
  else if t = "passive" then .PASSIVE
  else if t = "free" then .FREE
  else if t = "unspecified" then .UNSPECIFIED
  else if t = "power_in" then .POWER_IN
  else if t = "power_out" then .POWER_OUT
  else if t = "open_collector" then .OPEN_COLLECTOR
  else if t = "open_emitter" then .OPEN_EMITTER
  else if t = "no_connect" then .NO_CONNECT
  else .UNSPECIFIED

/-- Visual shape of a symbol pin. -/
inductive PinShape where
  | LINE
  | INVERTED
  | CLOCK
  | INVERTED_CLOCK
  | INPUT_LOW
  | CLOCK_LOW
  | OUTPUT_LOW
  | EDGE_CLOCK_HIGH
  | NON_LOGIC
deriving DecidableEq

/-- The KiCad string of a `PinShape`. -/
def PinShape.value : PinShape → String
  | .LINE => "line"
  | .INVERTED => "inverted"
  | .CLOCK => "clock"
  | .INVERTED_CLOCK => "inverted_clock"
  | .INPUT_LOW => "input_low"
  | .CLOCK_LOW => "clock_low"
  | .OUTPUT_LOW => "output_low"
  | .EDGE_CLOCK_HIGH => "edge_clock_high"
  | .NON_LOGIC => "non_logic"

/-- `PinShape.from_string`: total lookup with `LINE` fallback — it never
raises. -/
def PinShape.from_string (s : String) : PinShape :=
  let t := pyLower s
  if t = "line" then .LINE
  else if t = "inverted" then .INVERTED
  else if t = "clock" then .CLOCK
  else if t = "inverted_clock" then .INVERTED_CLOCK
  else if t = "input_low" then .INPUT_LOW
  else if t = "clock_low" then .CLOCK_LOW
  else if t = "output_low" then .OUTPUT_LOW
  else if t = "edge_clock_high" then .EDGE_CLOCK_HIGH
  else if t = "non_logic" then .NON_LOGIC
  else .LINE

/-! ## Primitive model types (`types/primitives.py`).  Machine floats are
modelled as `ℚ`; decimal constants are written with `mkRat`. -/

/-- A 2D coordinate point. -/
structure Point where
  x : ℚ
  y : ℚ
deriving DecidableEq

/-- A 2D position with rotation angle. -/
structure Position where
  x : ℚ
  y : ℚ
  angle : ℚ := 0
deriving DecidableEq

/-- A unique identifier (`UUID.value`). -/
structure UUID where
  value : String
deriving DecidableEq

/-- An RGBA color. -/
structure Color where
  r : Int
  g : Int
  b : Int
  a : ℚ := 1
deriving DecidableEq

/-- Line stroke styling. -/
structure Stroke where
  width : ℚ
  type : String := "default"
  color : Option Color := none
deriving DecidableEq

/-- Shape fill styling. -/
structure Fill where
  type : String := "none"
  color : Option Color := none
deriving DecidableEq

/-- Text font specification. -/
structure Font where
  face : Option String := none
  size_x : ℚ := mkRat 127 100
  size_y : ℚ := mkRat 127 100
  thickness : ℚ := mkRat 254 1000
  bold : Bool := false
  italic : Bool := false
  line_spacing : ℚ := 1
deriving DecidableEq

/-- Text effects and justification. -/
structure Effects where
  font : Font := {}
  justify_h : String := "center"
  justify_v : String := "center"
  mirror : Bool := false
  hide : Bool := false
deriving DecidableEq

/-- A named property with value and display settings. -/
structure Property where
  name : String
  value : String
  id : Int
  position : Position := ⟨0, 0, 0⟩
  effects : Effects := {}
deriving DecidableEq

/-! ## Symbol model types (`types/symbol.py`).  The Python field names `end`
and `extends` are Lean keywords and are embedded as `end_` / `extends_`. -/

/-- A symbol pin definition. -/
structure PinDef where
  number : String
  name : String
  electrical_type : PinElectricalType := .UNSPECIFIED
  shape : PinShape := .LINE
  position : Position := ⟨0, 0, 0⟩
  length : ℚ := mkRat 254 100
  name_effects : Option Effects := none
  number_effects : Option Effects := none
  hide : Bool := false
deriving DecidableEq

/-- Rectangle graphic element. -/
structure Rectangle where
  start : Point
  end_ : Point
  stroke : Stroke
  fill : Fill
deriving DecidableEq

/-- Circle graphic element. -/
structure Circle where
  center : Point
  radius : ℚ
  stroke : Stroke
  fill : Fill
deriving DecidableEq

/-- Arc graphic element. -/
structure Arc where
  start : Point
  mid : Point
  end_ : Point
  stroke : Stroke
  fill : Fill
deriving DecidableEq

/-- Polyline graphic element. -/
structure Polyline where
  points : List Point
  stroke : Stroke
  fill : Fill
deriving DecidableEq

/-- Text graphic element. -/
structure TextElem where
  text : String
  position : Position
  effects : Effects
deriving DecidableEq

/-- The graphic-element union used by symbol units. -/
inductive GraphicElement where
  | rectangle (r : Rectangle)
  | circle (c : Circle)
  | arc (a : Arc)
  | polyline (p : Polyline)
  | text (t : TextElem)
deriving DecidableEq

/-- A symbol unit grouping pins and graphics. -/
structure SymbolUnit where
  name : String
  unit_index : Int
  style_index : Int
  pins : List PinDef
  graphics : List GraphicElement
deriving DecidableEq

/-- A symbol definition grouping properties, units and flags. -/
structure SymbolDef where
  name : String
  properties : List Property := []
  units : List SymbolUnit := []
  in_bom : Bool := true
  on_board : Bool := true
  extends_ : Option String := none
  power : Bool := false
  pin_numbers_hide : Bool := false
  pin_names_hide : Bool := false
  pin_names_offset : ℚ := mkRat 508 1000
deriving DecidableEq

/-- A symbol library: version, generator and ordered symbol definitions. -/
structure SymbolLibrary where
  version : String
  generator : String
  symbols : List SymbolDef
deriving DecidableEq

/-! ## Symbol-library decoder (`parser/symbol_parser.py`).

Decoder helpers run in `Except String`: the error channel models an uncaught
Python exception (`float(...)` raising `ValueError` on a non-numeric atom),
which the source does not catch anywhere in this module. -/

/-- Error value for symbol-library decoding (`SymbolParseError`). -/
structure SymbolParseError where
  message : String
  context : String := ""
deriving DecidableEq

/-- Result of a top-level decode call: a returned value, a returned error
value, or an escaped Python exception. -/
inductive PyResult (ε α : Type) where
  | ok (a : α)
  | err (e : ε)
  | exn (msg : String)
deriving DecidableEq

/-- The exception message for a failed `float(...)` conversion. -/
def floatErr : String := "ValueError: could not convert string to float"

/-- `float(x) if isinstance(x, str) else dflt` — the conversion pattern used
throughout the element decoders (raises on a non-numeric atom, and yields
the default when the operand is a sub-list). -/
def pyFloatOf (e : SExpr) (dflt : ℚ) : Except String ℚ :=
  match e with
  | .atom s =>
    match pyFloat s with
    | some q => .ok q
    | none => .error floatErr
  | .list _ => .ok dflt

/-- Python `a or b` for an optional string result: `None` and the empty
string are both falsy. -/
def pyOrStr (a : Option String) (b : String) : String :=
  match a with
  | some s => if s = "" then b else s
  | none => b

/-- `_parse_position`: `(at x y [angle])`, defaulting to the origin. -/
def parse_position (expr : SExpr) : Except String Position := do
  match sexpr_get expr "at" with
  | some (.list (_ :: a1 :: a2 :: rest)) =>
    let x ← pyFloatOf a1 0
    let y ← pyFloatOf a2 0
    let angle ← match rest with
      | a3 :: _ => pyFloatOf a3 0
      | [] => pure 0
    pure ⟨x, y, angle⟩
  | _ => pure ⟨0, 0, 0⟩

/-- `_parse_stroke`: `(stroke (width w) (type t) ...)` with zero-width
`default` fallback.  `width or 0.0` and `type or "default"` follow Python
truthiness (`0.0` and `""` are falsy, which coincides with the defaults). -/
def parse_stroke (expr : SExpr) : Stroke :=
  match sexpr_get expr "stroke" with
  | some stroke_expr =>
    { width := (sexpr_get_float stroke_expr "width").getD 0
      type := pyOrStr (sexpr_get_value stroke_expr "type") "default"
      color := none }
  | none => { width := 0, type := "default", color := none }

/-- `_parse_fill`: `(fill (type t))` with `none` fallback. -/
def parse_fill (expr : SExpr) : Fill :=
  match sexpr_get expr "fill" with
  | some fill_expr =>
    { type := pyOrStr (sexpr_get_value fill_expr "type") "none", color := none }
  | none => { type := "none", color := none }

/-- `_parse_font`: `(font (size x y) ...)` with 1.27 defaults. -/
def parse_font (expr : SExpr) : Except String Font := do
  match sexpr_get expr "font" with
  | some font_expr =>
    let (sx, sy) ← match sexpr_get font_expr "size" with
      | some (.list (_ :: s1 :: s2 :: _)) => do
        let a ← pyFloatOf s1 (mkRat 127 100)
        let b ← pyFloatOf s2 (mkRat 127 100)
        pure (a, b)
      | _ => pure (mkRat 127 100, mkRat 127 100)
    pure { size_x := sx, size_y := sy,
           bold := sexpr_has_flag font_expr "bold",
           italic := sexpr_has_flag font_expr "italic" }
  | none => pure {}

/-- The justify scan inside `_parse_effects`: `left`/`right` set the
horizontal slot, `top`/`bottom` the vertical one, later atoms override. -/
def justifyScan : List SExpr → String → String → String × String
  | [], jh, jv => (jh, jv)
  | .atom it :: rest, jh, jv =>
    if it = "left" ∨ it = "right" then justifyScan rest it jv
    else if it = "top" ∨ it = "bottom" then justifyScan rest jh it
    else justifyScan rest jh jv
  | .list _ :: rest, jh, jv => justifyScan rest jh jv

/-- `_parse_effects`: `(effects (font ...) (justify ...) [hide])`. -/
def parse_effects (expr : SExpr) : Except String Effects := do
  match sexpr_get expr "effects" with
  | some effects_expr =>
    let font ← parse_font effects_expr
    let (jh, jv) := match sexpr_get effects_expr "justify" with
      | some (.list (_ :: items)) => justifyScan items "center" "center"
      | _ => ("center", "center")
    pure { font := font, justify_h := jh, justify_v := jv,
           hide := sexpr_has_flag effects_expr "hide" }
  | none => pure {}

/-- `_parse_property`: `(property name value (id ...) (at ...) (effects ...))`.
`id or 0` follows Python truthiness (`0` is falsy, coinciding with the
default). -/
def parse_property (xs : List SExpr) : Except String Property := do
  let name := match (xs[1]? : Option SExpr) with | some (.atom s) => s | _ => ""
  let value := match (xs[2]? : Option SExpr) with | some (.atom s) => s | _ => ""
  let pid := (sexpr_get_int (.list xs) "id").getD 0
  let pos ← parse_position (.list xs)
  let eff ← parse_effects (.list xs)
  pure ⟨name, value, pid, pos, eff⟩

/-- The positional-atom scan of `_parse_pin`.  The source wraps
`PinElectricalType.from_string` in `try/except (KeyError, ValueError)` and
falls through to the analogous `PinShape.from_string` attempt — but
`from_string` is a total `dict.get` with a fallback and never raises, so the
first attempt always succeeds: every leading atom is assigned (last one
wins) to the electrical type and the shape branch is dead code. -/
def pin_type_scan : List SExpr → PinElectricalType → PinElectricalType
  | .atom v :: rest, _ => pin_type_scan rest (PinElectricalType.from_string v)
  | _, et => et

/-- `_parse_pin`: `(pin type shape (at ...) (length ...) (name ...)
(number ...) [hide])`.  The shape always keeps its `LINE` initial value;
see `pin_type_scan`. -/
def parse_pin (xs : List SExpr) : Except String PinDef := do
  let electrical_type := pin_type_scan (xs.drop 1) .UNSPECIFIED
  let shape := PinShape.LINE
  let position ← parse_position (.list xs)
  let length ← match sexpr_get (.list xs) "length" with
    | some (.list (_ :: l1 :: _)) => pyFloatOf l1 (mkRat 254 100)
    | _ => pure (mkRat 254 100)
  let (name, name_effects) ← match sexpr_get (.list xs) "name" with
    | some name_expr =>
      match name_expr with
      | .list (_ :: n1 :: _) => do
        let nm := match n1 with | .atom s => s | _ => ""
        let eff ← parse_effects name_expr
        pure (nm, some eff)
      | _ => pure ("", (none : Option Effects))
    | none => pure ("", (none : Option Effects))
  let (number, number_effects) ← match sexpr_get (.list xs) "number" with
    | some number_expr =>
      match number_expr with
      | .list (_ :: n1 :: _) => do
        let nm := match n1 with | .atom s => s | _ => ""
        let eff ← parse_effects number_expr
        pure (nm, some eff)
      | _ => pure ("", (none : Option Effects))
    | none => pure ("", (none : Option Effects))
  pure { number := number, name := name, electrical_type := electrical_type,
         shape := shape, position := position, length := length,
         name_effects := name_effects, number_effects := number_effects,
         hide := sexpr_has_flag (.list xs) "hide" }

/-- A `(key x y)` coordinate pair with `Point(0,0)` fallback, as inlined in
`_parse_rectangle` / `_parse_arc` (`float` raises on non-numeric atoms). -/
def parse_point_of (e : SExpr) (key : String) : Except String Point := do
  match sexpr_get e key with
  | some (.list (_ :: a :: b :: _)) => do
    let x ← pyFloatOf a 0
    let y ← pyFloatOf b 0
    pure ⟨x, y⟩
  | _ => pure ⟨0, 0⟩

/-- `_parse_rectangle`. -/
def parse_rectangle (xs : List SExpr) : Except String Rectangle := do
  let start ← parse_point_of (.list xs) "start"
  let end_ ← parse_point_of (.list xs) "end"
  pure ⟨start, end_, parse_stroke (.list xs), parse_fill (.list xs)⟩

/-- `_parse_circle`. -/
def parse_circle (xs : List SExpr) : Except String Circle := do
  let center ← parse_point_of (.list xs) "center"
  let radius ← match sexpr_get (.list xs) "radius" with
    | some (.list (_ :: r1 :: _)) => pyFloatOf r1 0
    | _ => pure 0
  pure ⟨center, radius, parse_stroke (.list xs), parse_fill (.list xs)⟩

/-- `_parse_arc`. -/
def parse_arc (xs : List SExpr) : Except String Arc := do
  let start ← parse_point_of (.list xs) "start"
  let mid ← parse_point_of (.list xs) "mid"
  let end_ ← parse_point_of (.list xs) "end"
  pure ⟨start, mid, end_, parse_stroke (.list xs), parse_fill (.list xs)⟩

/-- The `(pts (xy x y) ...)` scan of `_parse_polyline`: children that are
lists headed `xy` with at least two following elements contribute a point. -/
def polyPoints : List SExpr → Except String (List Point)
  | [] => pure []
  | .list (.atom "xy" :: a :: b :: _) :: rest => do
    let x ← pyFloatOf a 0
    let y ← pyFloatOf b 0
    let ps ← polyPoints rest
    pure (⟨x, y⟩ :: ps)
  | _ :: rest => polyPoints rest

/-- `_parse_polyline`. -/
def parse_polyline (xs : List SExpr) : Except String Polyline := do
  let points ← match sexpr_get (.list xs) "pts" with
    | some (.list (_ :: items)) => polyPoints items
    | _ => pure []
  pure ⟨points, parse_stroke (.list xs), parse_fill (.list xs)⟩

/-- `_parse_text`. -/
def parse_text (xs : List SExpr) : Except String TextElem := do
  let text := match (xs[1]? : Option SExpr) with | some (.atom s) => s | _ => ""
  let pos ← parse_position (.list xs)
  let eff ← parse_effects (.list xs)
  pure ⟨text, pos, eff⟩

/-- Split a character list on every occurrence of `sep` (Python
`str.split(sep)`; the split of the empty string is `[""]`). -/
def splitOnCharAux (sep : Char) : List Char → List Char → List (List Char)
  | [], acc => [acc.reverse]
  | ch :: rest, acc =>
    if ch = sep then acc.reverse :: splitOnCharAux sep rest []
    else splitOnCharAux sep rest (ch :: acc)

/-- Python `str.rsplit(sep, 2)` for a single-character separator: at most
the last two separators split. -/
def pyRsplit2 (s : String) (sep : Char) : List String :=
  let segs := (splitOnCharAux sep s.data []).map String.mk
  if segs.length ≤ 3 then segs
  else String.intercalate (String.mk [sep]) (segs.take (segs.length - 2)) ::
    segs.drop (segs.length - 2)

/-- The unit/style index derivation of `_parse_symbol_unit`:
`parts = name.rsplit("_", 2)`, then
`try: unit_index = int(parts[-2]); style_index = int(parts[-1]) except: pass`.
Note the partial-assignment semantics of the `try` block: when only the last
segment fails to parse, the already-assigned unit index is kept. -/
def unit_indices (name : String) : Int × Int :=
  let parts := pyRsplit2 name '_'
  if parts.length ≥ 3 then
    match pyInt (parts.getD (parts.length - 2) "") with
    | none => (1, 1)
    | some u =>
      match pyInt (parts.getD (parts.length - 1) "") with
      | none => (u, 1)
      | some st => (u, st)
  else (1, 1)

/-- The child dispatch of `_parse_symbol_unit`: `pin` children accumulate in
order into the pin list, the five graphic kinds into the graphics list, and
anything else is skipped. -/
def unitChildren : List SExpr → Except String (List PinDef × List GraphicElement)
  | [] => pure ([], [])
  | item :: rest =>
    match item with
    | .list (.atom "pin" :: tail) => do
      let p ← parse_pin (.atom "pin" :: tail)
      let (pins, gfx) ← unitChildren rest
      pure (p :: pins, gfx)
    | .list (.atom "rectangle" :: tail) => do
      let g ← parse_rectangle (.atom "rectangle" :: tail)
      let (pins, gfx) ← unitChildren rest
      pure (pins, .rectangle g :: gfx)
    | .list (.atom "circle" :: tail) => do
      let g ← parse_circle (.atom "circle" :: tail)
      let (pins, gfx) ← unitChildren rest
      pure (pins, .circle g :: gfx)
    | .list (.atom "arc" :: tail) => do
      let g ← parse_arc (.atom "arc" :: tail)
      let (pins, gfx) ← unitChildren rest
      pure (pins, .arc g :: gfx)
    | .list (.atom "polyline" :: tail) => do
      let g ← parse_polyline (.atom "polyline" :: tail)
      let (pins, gfx) ← unitChildren rest
      pure (pins, .polyline g :: gfx)
    | .list (.atom "text" :: tail) => do
      let g ← parse_text (.atom "text" :: tail)
      let (pins, gfx) ← unitChildren rest
      pure (pins, .text g :: gfx)
    | _ => unitChildren rest

/-- `_parse_symbol_unit`: `(symbol name children...)`. -/
def parse_symbol_unit (xs : List SExpr) : Except String SymbolUnit := do
  let name := match (xs[1]? : Option SExpr) with | some (.atom s) => s | _ => ""
  let (ui, si) := unit_indices name
  let (pins, graphics) ← unitChildren (xs.drop 2)
  pure { name := name, unit_index := ui, style_index := si,
         pins := pins, graphics := graphics }

/-- The child dispatch of `_parse_symbol_def`: the accumulator record plays
the role of the source's local mutable variables (properties and units
append in order, later scalar elements overwrite earlier ones). -/
def defChildren : List SExpr → SymbolDef → Except String SymbolDef
  | [], acc => pure acc
  | item :: rest, acc => do
    let acc' ← (match item with
      | .list (.atom "property" :: tail) => do
        let p ← parse_property (.atom "property" :: tail)
        pure { acc with properties := acc.properties ++ [p] }
      | .list (.atom "symbol" :: tail) => do
        let u ← parse_symbol_unit (.atom "symbol" :: tail)
        pure { acc with units := acc.units ++ [u] }
      | .list (.atom "in_bom" :: tail) =>
        pure { acc with in_bom := match tail with
          | v :: _ => (match v with | .atom s => s == "yes" | _ => false)
          | [] => true }
      | .list (.atom "on_board" :: tail) =>
        pure { acc with on_board := match tail with
          | v :: _ => (match v with | .atom s => s == "yes" | _ => false)
          | [] => true }
      | .list (.atom "extends" :: tail) =>
        pure { acc with extends_ := match tail with
          | .atom s :: _ => some s
          | _ => none }
      | .list (.atom "power" :: _) => pure { acc with power := true }
      | .list (.atom "pin_numbers" :: tail) =>
        pure { acc with
          pin_numbers_hide := sexpr_has_flag (.list (.atom "pin_numbers" :: tail)) "hide" }
      | .list (.atom "pin_names" :: tail) =>
        let it : SExpr := .list (.atom "pin_names" :: tail)
        pure { acc with
          pin_names_hide := sexpr_has_flag it "hide"
          pin_names_offset := (sexpr_get_float it "offset").getD acc.pin_names_offset }
      | _ => pure acc : Except String SymbolDef)
    defChildren rest acc'

/-- `_parse_symbol_def`: `(symbol name children...)` with all-default flags. -/
def parse_symbol_def (xs : List SExpr) : Except String SymbolDef :=
  defChildren (xs.drop 2)
    { name := match (xs[1]? : Option SExpr) with | some (.atom s) => s | _ => "" }

/-- Decode every `(symbol ...)` child in order. -/
def parseSymbols : List (List SExpr) → Except String (List SymbolDef)
  | [] => pure []
  | xs :: rest => do
    let d ← parse_symbol_def xs
    let ds ← parseSymbols rest
    pure (d :: ds)

/-- `str(ParseError)` as interpolated into `SymbolParseError`. -/
def parseErrorStr (e : ParseError) : String :=
  "Parse error at line " ++ Nat.repr e.line ++ ", column " ++ Nat.repr e.column ++
    ": " ++ e.message

mutual

/-- Python `str()` of a head element as interpolated into the root-tag
error message: an atom prints bare, a list prints as a Python list repr
(atoms single-quoted; exact for quote-free ASCII text, which is the only
form any theorem below touches). -/
def sexprHeadStr : SExpr → String
  | .atom s => s
  | .list xs => "[" ++ String.intercalate ", " (sexprReprL xs) ++ "]"

/-- Python `repr()` of list elements. -/
def sexprReprL : List SExpr → List String
  | [] => []
  | .atom s :: rest => ("'" ++ s ++ "'") :: sexprReprL rest
  | .list xs :: rest =>
    ("[" ++ String.intercalate ", " (sexprReprL xs) ++ "]") :: sexprReprL rest

end

/-- `parse_symbol_library`: parse text, validate the root tag, extract
version/generator with fallbacks, and decode every symbol definition. -/
def parse_symbol_library (text : String) : PyResult SymbolParseError SymbolLibrary :=
  match parse_sexpr text with
  | .error e => .err ⟨parseErrorStr e, ""⟩
  | .ok expr =>
    match expr with
    | .list (.atom h :: _) =>
      if h = "kicad_symbol_lib" then
        match parseSymbols (sexpr_get_all expr "symbol") with
        | .ok syms =>
          .ok { version := pyOrStr (sexpr_get_value expr "version") "20210201"
                generator := pyOrStr (sexpr_get_value expr "generator") "unknown"
                symbols := syms }
        | .error m => .exn m
      else .err ⟨"Expected kicad_symbol_lib, got " ++ h, ""⟩
    | .list (.list ys :: _) =>
      .err ⟨"Expected kicad_symbol_lib, got " ++ sexprHeadStr (.list ys), ""⟩
    | _ => .err ⟨"Empty or invalid symbol library", ""⟩

/-! ## Symbol-library encoder (`writer/symbol_writer.py`).
`make_sexpr` calls are inlined: floats render through `format_number`,
integers through `Int.repr`, strings stay as atoms. -/

/-- `_write_position`: `(key x y [angle])`, omitting an angle of exactly 0. -/
def write_position (key : String) (pos : Position) : SExpr :=
  if pos.angle ≠ 0 then
    .list [.atom key, .atom (format_number pos.x), .atom (format_number pos.y),
      .atom (format_number pos.angle)]
  else
    .list [.atom key, .atom (format_number pos.x), .atom (format_number pos.y)]

/-- `_write_stroke`: width, type, and a color (black transparent default). -/
def write_stroke (stroke : Stroke) : SExpr :=
  .list [.atom "stroke",
    .list [.atom "width", .atom (format_number stroke.width)],
    .list [.atom "type", .atom stroke.type],
    match stroke.color with
    | some col =>
      .list [.atom "color", .atom (Int.repr col.r), .atom (Int.repr col.g),
        .atom (Int.repr col.b), .atom (format_number col.a)]
    | none =>
      .list [.atom "color", .atom "0", .atom "0", .atom "0", .atom "0"]]

/-- `_write_fill`. -/
def write_fill (fill : Fill) : SExpr :=
  .list [.atom "fill", .list [.atom "type", .atom fill.type]]

/-- `_write_font`. -/
def write_font (effects : Effects) : SExpr :=
  .list ([.atom "font",
    .list [.atom "size", .atom (format_number effects.font.size_x),
      .atom (format_number effects.font.size_y)]] ++
    (if effects.font.bold then [SExpr.atom "bold"] else []) ++
    (if effects.font.italic then [SExpr.atom "italic"] else []))

/-- `_write_effects`: font always, justify only when not centered, `hide`
flag last. -/
def write_effects (effects : Effects) : SExpr :=
  .list ([.atom "effects", write_font effects] ++
    (if effects.justify_h ≠ "center" ∨ effects.justify_v ≠ "center" then
      [SExpr.list (.atom "justify" ::
        (if effects.justify_h ≠ "center" then [SExpr.atom effects.justify_h] else []) ++
        (if effects.justify_v ≠ "center" then [SExpr.atom effects.justify_v] else []))]
    else []) ++
    (if effects.hide then [SExpr.atom "hide"] else []))

/-- `_write_property`: always emits id, position and effects. -/
def write_property (prop : Property) : SExpr :=
  .list [.atom "property", .atom prop.name, .atom prop.value,
    .list [.atom "id", .atom (Int.repr prop.id)],
    write_position "at" prop.position,
    write_effects prop.effects]

/-- The default `(effects (font (size 1 1)))` emitted for pin names and
numbers without explicit effects. -/
def defaultPinEffects : SExpr :=
  .list [.atom "effects", .list [.atom "font", .list [.atom "size", .atom "1", .atom "1"]]]

/-- `_write_pin`. -/
def write_pin (pin : PinDef) : SExpr :=
  .list ([.atom "pin", .atom pin.electrical_type.value, .atom pin.shape.value,
    write_position "at" pin.position,
    .list [.atom "length", .atom (format_number pin.length)],
    .list [.atom "name", .atom pin.name,
      match pin.name_effects with
      | some eff => write_effects eff
      | none => defaultPinEffects],
    .list [.atom "number", .atom pin.number,
      match pin.number_effects with
      | some eff => write_effects eff
      | none => defaultPinEffects]] ++
    (if pin.hide then [SExpr.atom "hide"] else []))

/-- `_write_rectangle`. -/
def write_rectangle (rect : Rectangle) : SExpr :=
  .list [.atom "rectangle",
    .list [.atom "start", .atom (format_number rect.start.x), .atom (format_number rect.start.y)],
    .list [.atom "end", .atom (format_number rect.end_.x), .atom (format_number rect.end_.y)],
    write_stroke rect.stroke, write_fill rect.fill]

/-- `_write_circle`. -/
def write_circle (circle : Circle) : SExpr :=
  .list [.atom "circle",
    .list [.atom "center", .atom (format_number circle.center.x), .atom (format_number circle.center.y)],
    .list [.atom "radius", .atom (format_number circle.radius)],
    write_stroke circle.stroke, write_fill circle.fill]

/-- `_write_arc`. -/
def write_arc (arc : Arc) : SExpr :=
  .list [.atom "arc",
    .list [.atom "start", .atom (format_number arc.start.x), .atom (format_number arc.start.y)],
    .list [.atom "mid", .atom (format_number arc.mid.x), .atom (format_number arc.mid.y)],
    .list [.atom "end", .atom (format_number arc.end_.x), .atom (format_number arc.end_.y)],
    write_stroke arc.stroke, write_fill arc.fill]

/-- `_write_polyline`. -/
def write_polyline (poly : Polyline) : SExpr :=
  .list [.atom "polyline",
    .list (.atom "pts" :: poly.points.map (fun pt =>
      SExpr.list [.atom "xy", .atom (format_number pt.x), .atom (format_number pt.y)])),
    write_stroke poly.stroke, write_fill poly.fill]

/-- `_write_text`. -/
def write_text (text : TextElem) : SExpr :=
  .list [.atom "text", .atom text.text, write_position "at" text.position,
    write_effects text.effects]

/-- `_write_graphic` dispatch. -/
def write_graphic : GraphicElement → SExpr
  | .rectangle r => write_rectangle r
  | .circle c => write_circle c
  | .arc a => write_arc a
  | .polyline p => write_polyline p
  | .text t => write_text t

/-- `_write_symbol_unit`: graphics first, then pins. -/
def write_symbol_unit (unit : SymbolUnit) : SExpr :=
  .list ([.atom "symbol", .atom unit.name] ++
    unit.graphics.map write_graphic ++ unit.pins.map write_pin)

/-- `_write_symbol_def`.  `if sym.extends:` uses Python string truthiness,
so an empty extends string is also skipped; `pin_names_offset` is only
emitted when it differs from the 0.508 default. -/
def write_symbol_def (sym : SymbolDef) : SExpr :=
  .list ([.atom "symbol", .atom sym.name,
    .list [.atom "in_bom", .atom (if sym.in_bom then "yes" else "no")],
    .list [.atom "on_board", .atom (if sym.on_board then "yes" else "no")]] ++
    (match sym.extends_ with
     | some e => if e = "" then [] else [SExpr.list [.atom "extends", .atom e]]
     | none => []) ++
    (if sym.power then [SExpr.list [.atom "power"]] else []) ++
    sym.properties.map write_property ++
    (if sym.pin_numbers_hide then [SExpr.list [.atom "pin_numbers", .atom "hide"]] else []) ++
    (if sym.pin_names_hide then [SExpr.list [.atom "pin_names", .atom "hide"]] else []) ++
    (if sym.pin_names_offset ≠ mkRat 508 1000 then
      [SExpr.list [.atom "pin_names",
        .list [.atom "offset", .atom (format_number sym.pin_names_offset)]]]
    else []) ++
    sym.units.map write_symbol_unit)

/-- `symbol_library_to_sexpr`. -/
def symbol_library_to_sexpr (lib : SymbolLibrary) : SExpr :=
  .list ([.atom "kicad_symbol_lib",
    .list [.atom "version", .atom lib.version],
    .list [.atom "generator", .atom lib.generator]] ++
    lib.symbols.map write_symbol_def)

/-- `write_symbol_library`: encode then render canonical text. -/
def write_symbol_library (lib : SymbolLibrary) : String :=
  write_sexpr (symbol_library_to_sexpr lib)

/-! ## Placed symbol instances (`types/schematic.py`, the part the claims
address). -/

/-- A pin instance on a placed symbol. -/
structure SymbolPin where
  number : String
  uuid : UUID
deriving DecidableEq

/-- A symbol placed on a schematic. -/
structure SymbolInstance where
  lib_id : String
  position : Position := ⟨0, 0, 0⟩
  unit : Int := 1
  mirror : String := ""
  properties : List Property := []
  pins : List SymbolPin := []
  uuid : UUID
  in_bom : Bool := true
  on_board : Bool := true
deriving DecidableEq

/-- The first-match property scan shared by `reference` / `value` /
`footprint` / `property_value` (each is a `for` loop returning the first
property with the requested name). -/
def firstPropValue : List Property → String → Option String
  | [], _ => none
  | p :: rest, name => if p.name = name then some p.value else firstPropValue rest name

/-- `SymbolInstance.reference`: first `Reference` property, or `"?"`. -/
def SymbolInstance.reference (s : SymbolInstance) : String :=
  (firstPropValue s.properties "Reference").getD "?"

/-- `SymbolInstance.value`: first `Value` property, or `""`. -/
def SymbolInstance.value (s : SymbolInstance) : String :=
  (firstPropValue s.properties "Value").getD ""

/-- `SymbolInstance.footprint`: first `Footprint` property, or `None`. -/
def SymbolInstance.footprint (s : SymbolInstance) : Option String :=
  firstPropValue s.properties "Footprint"

/-- `SymbolInstance.property_value`: first property of the given name. -/
def SymbolInstance.property_value (s : SymbolInstance) (name : String) : Option String :=
  firstPropValue s.properties name

/-- The loop of `SymbolInstance.with_property`: walk the list, replacing
every property with a matching name by `prop`; the flag records whether a
match was seen, and `prop` is appended at the end when none was. -/
def withPropLoop (prop : Property) : List Property → Bool → List Property
  | [], found => if found then [] else [prop]
  | p :: rest, found =>
    if p.name = prop.name then prop :: withPropLoop prop rest true
    else p :: withPropLoop prop rest found

/-- `SymbolInstance.with_property`: a new instance with the updated
property list and every other field passed through unchanged. -/
def SymbolInstance.with_property (s : SymbolInstance) (prop : Property) : SymbolInstance :=
  { lib_id := s.lib_id, position := s.position, unit := s.unit,
    mirror := s.mirror, properties := withPropLoop prop s.properties false,
    pins := s.pins, uuid := s.uuid, in_bom := s.in_bom, on_board := s.on_board }

/-! ## Concrete values used by the claim theorems. -/

/-- Extract a `PyResult`'s returned value, `none` for an error return or an
escaped exception. -/
def decodedOf {ε α : Type} : PyResult ε α → Option α
  | .ok a => some a
  | _ => none

/-- The electrical type of the first pin of the first unit of the first
symbol of a library. -/
def firstPinET (lib : SymbolLibrary) : Option PinElectricalType :=
  match lib.symbols with
  | s :: _ =>
    match s.units with
    | u :: _ =>
      match u.pins with
      | p :: _ => some p.electrical_type
      | [] => none
    | [] => none
  | [] => none

/-- A one-pin symbol library whose pin is `passive`, used to exercise the
encode → write → parse → decode round trip. -/
def exLib : SymbolLibrary :=
  { version := "20210201", generator := "test",
    symbols := [{ name := "R",
                  units := [{ name := "R_1_1", unit_index := 1, style_index := 1,
                              pins := [{ number := "1", name := "P",
                                         electrical_type := .PASSIVE, shape := .LINE,
                                         position := ⟨0, 0, 0⟩, length := mkRat 254 100,
                                         name_effects := none, number_effects := none,
                                         hide := false }],
                              graphics := [] }] }] }

/-- A symbol instance with no properties. -/
def instEmpty : SymbolInstance :=
  { lib_id := "Device:R", uuid := ⟨"00000000-0000-0000-0000-000000000001"⟩ }

/-- A symbol instance with two `Reference` properties (duplicate names). -/
def instDup : SymbolInstance :=
  { lib_id := "Device:R", uuid := ⟨"00000000-0000-0000-0000-000000000002"⟩,
    properties := [⟨"Reference", "U1", 0, ⟨0, 0, 0⟩, {}⟩,
                   ⟨"Reference", "U2", 1, ⟨0, 0, 0⟩, {}⟩,
                   ⟨"Value", "74HC00", 2, ⟨0, 0, 0⟩, {}⟩] }

deriving instance DecidableEq for Except

/-- The head atom of a parsed tree, when the parse succeeds and the tree is
a non-empty list headed by an atom. -/
def parsedHead (text : String) : Option String :=
  match parse_sexpr text with
  | .ok (.list (.atom h :: _)) => some h
  | _ => none

/-! ## Claim theorems and their supporting lemmas. -/

theorem firstPropValue_eq_none (ps : List Property) (n : String)
    (h : ∀ p ∈ ps, p.name ≠ n) : firstPropValue ps n = none := by
  induction ps with
  | nil => rfl
  | cons p rest ih =>
    simp only [firstPropValue]
    rw [if_neg (h p (by simp))]
    exact ih (fun q hq => h q (by simp [hq]))

theorem firstPropValue_first (ps₁ : List Property) (p : Property) (ps₂ : List Property)
    (n : String) (h1 : ∀ q ∈ ps₁, q.name ≠ n) (h2 : p.name = n) :
    firstPropValue (ps₁ ++ p :: ps₂) n = some p.value := by
  induction ps₁ with
  | nil => simp [firstPropValue, if_pos h2]
  | cons q rest ih =>
    simp only [List.cons_append, firstPropValue]
    rw [if_neg (h1 q (by simp))]
    exact ih (fun r hr => h1 r (by simp [hr]))

theorem withPropLoop_found (prop : Property) (ps : List Property) :
    withPropLoop prop ps true = ps.map (fun q => if q.name = prop.name then prop else q) := by
  induction ps with
  | nil => rfl
  | cons q rest ih =>
    simp only [withPropLoop, List.map_cons]
    by_cases h : q.name = prop.name
    · rw [if_pos h, if_pos h, ih]
    · rw [if_neg h, if_neg h, ih]

theorem withPropLoop_notfound (prop : Property) (ps : List Property) :
    withPropLoop prop ps false =
      (if ps.any (fun q => q.name == prop.name) then
        ps.map (fun q => if q.name = prop.name then prop else q)
      else ps ++ [prop]) := by
  induction ps with
  | nil => simp [withPropLoop]
  | cons q rest ih =>
    by_cases h : q.name = prop.name
    · have hb : (q.name == prop.name) = true := by simp [h]
      simp [withPropLoop, hb, h, withPropLoop_found]
    · have hb : (q.name == prop.name) = false := by simp [h]
      simp only [withPropLoop, List.any_cons, hb, Bool.false_or, List.map_cons,
        if_neg h, ih]
      by_cases hrest : rest.any (fun q => q.name == prop.name) <;> simp [hrest]

/-- C8: parsing empty input text (so an empty token stream), or entering
`_parse_expr` with the token stream exhausted, fails with message
"Unexpected end of input" at line 0, column 0 — a position outside the
1-indexed convention of every other error. -/
theorem c8_empty_input_error :
    parse_sexpr "" = .error ⟨"Unexpected end of input", 0, 0⟩ ∧
    (∀ fuel : Nat, parseExpr (fuel + 1) [] = .error ⟨"Unexpected end of input", 0, 0⟩) :=
  ⟨rfl, fun _ => rfl⟩

/-- C3 counterexample: writing the empty list value does not yield exactly
the text `"()"` — the writer appends a final newline. -/
theorem c3_write_empty_not_bare : write_sexpr (.list []) ≠ "()" := by decide

/-- C3 amended: parsing `"()"` yields the empty list value, and writing the
empty list value yields `"()"` followed by the writer's single trailing
newline, i.e. `"()\n"`. -/
theorem c3_empty_list_roundtrip :
    parse_sexpr "()" = .ok (.list []) ∧ write_sexpr (.list []) = "()\n" :=
  ⟨rfl, rfl⟩

/-- C2: decoding `(pin passive inverted)` yields electrical type
`unspecified` and shape `line`, although `passive` is in the electrical-type
vocabulary and `inverted` is in the shape vocabulary: the positional scan
assigns every atom through the total electrical-type lookup (whose fallback
is `unspecified`) and never consults the shape vocabulary, because the
`try/except` it relies on protects a function that cannot raise. -/
theorem c2_pin_scan_drops_shape :
    parse_pin [SExpr.atom "pin", .atom "passive", .atom "inverted"] =
      .ok { number := "", name := "", electrical_type := .UNSPECIFIED, shape := .LINE,
            position := ⟨0, 0, 0⟩, length := mkRat 254 100, name_effects := none,
            number_effects := none, hide := false } ∧
    PinElectricalType.from_string "passive" = .PASSIVE ∧
    PinShape.from_string "inverted" = .INVERTED := by
  decide

set_option maxRecDepth 10000 in
/-- C1: the encode → write → parse → decode round trip does not return the
original library: for `exLib`, whose only pin is `passive`, the decoded
library's first pin has electrical type `unspecified` (the pin positional
scan loses the type and the shape, see `pin_type_scan`). -/
theorem c1_roundtrip_loses_pin_type :
    parse_symbol_library (write_symbol_library exLib) ≠ .ok exLib ∧
    (decodedOf (parse_symbol_library (write_symbol_library exLib))).bind firstPinET =
      some .UNSPECIFIED ∧
    firstPinET exLib = some .PASSIVE := by
  decide

set_option maxRecDepth 10000 in
/-- C4: root-tag validation and version defaulting behave as claimed (wrong
root tag is an error naming the head found; a missing `version` field
defaults to `"20210201"` without error), but decoding can also fail with the
root tag correct: a non-numeric coordinate atom escapes as an uncaught
`ValueError` from `float(...)`, so failure is not limited to root-tag
mismatch. -/
theorem c4_decode_failure_behavior :
    parse_symbol_library "(kicad_symbol_lib (symbol X (property P V (at z 0))))" =
      .exn floatErr ∧
    parsedHead "(kicad_symbol_lib (symbol X (property P V (at z 0))))" =
      some "kicad_symbol_lib" ∧
    parse_symbol_library "(kicad_symbol_lib)" = .ok ⟨"20210201", "unknown", []⟩ ∧
    parse_symbol_library "(foo)" = .err ⟨"Expected kicad_symbol_lib, got foo", ""⟩ := by
  decide

/-- C6 counterexample: for the unit name `S_2_x` the style suffix fails
integer parsing, yet the decoded unit index is 2, not the claimed default
pair (1, 1): the `try` block had already assigned the unit index before the
style parse raised. -/
theorem c6_partial_suffix_counterexample :
    pyInt "x" = none ∧ pyInt "2" = some 2 ∧
    parse_symbol_unit [SExpr.atom "symbol", .atom "S_2_x"] =
      .ok { name := "S_2_x", unit_index := 2, style_index := 1,
            pins := [], graphics := [] } := by
  decide

/-- C9: `reference` falls back to `"?"`, `value` to `""` and `footprint` to
`none` when no property of the matching name exists, and each accessor
returns the value of the first property in list order with the matching
name (also in the presence of duplicates). -/
theorem c9_accessor_defaults_first_match (s : SymbolInstance) :
    ((∀ p ∈ s.properties, p.name ≠ "Reference") → s.reference = "?") ∧
    ((∀ p ∈ s.properties, p.name ≠ "Value") → s.value = "") ∧
    ((∀ p ∈ s.properties, p.name ≠ "Footprint") → s.footprint = none) ∧
    (∀ ps₁ p ps₂, s.properties = ps₁ ++ p :: ps₂ → (∀ q ∈ ps₁, q.name ≠ "Reference") →
      p.name = "Reference" → s.reference = p.value) ∧
    (∀ ps₁ p ps₂, s.properties = ps₁ ++ p :: ps₂ → (∀ q ∈ ps₁, q.name ≠ "Value") →
      p.name = "Value" → s.value = p.value) ∧
    (∀ ps₁ p ps₂, s.properties = ps₁ ++ p :: ps₂ → (∀ q ∈ ps₁, q.name ≠ "Footprint") →
      p.name = "Footprint" → s.footprint = some p.value) := by
  refine ⟨?_, ?_, ?_, ?_, ?_, ?_⟩
  · intro h
    simp [SymbolInstance.reference, firstPropValue_eq_none s.properties _ h]
  · intro h
    simp [SymbolInstance.value, firstPropValue_eq_none s.properties _ h]
  · intro h
    simp [SymbolInstance.footprint, firstPropValue_eq_none s.properties _ h]
  · intro ps₁ p ps₂ hsplit h1 h2
    simp [SymbolInstance.reference, hsplit, firstPropValue_first ps₁ p ps₂ _ h1 h2]
  · intro ps₁ p ps₂ hsplit h1 h2
    simp [SymbolInstance.value, hsplit, firstPropValue_first ps₁ p ps₂ _ h1 h2]
  · intro ps₁ p ps₂ hsplit h1 h2
    simp [SymbolInstance.footprint, hsplit, firstPropValue_first ps₁ p ps₂ _ h1 h2]

/-- C9 witness: the defaults on a property-less instance and first-match on
an instance with two `Reference` properties. -/
theorem c9_accessor_witness :
    instEmpty.reference = "?" ∧ instEmpty.value = "" ∧ instEmpty.footprint = none ∧
    instDup.reference = "U1" := by
  refine ⟨?_, ?_, ?_, ?_⟩
  · exact (c9_accessor_defaults_first_match instEmpty).1 (by decide)
  · exact (c9_accessor_defaults_first_match instEmpty).2.1 (by decide)
  · exact (c9_accessor_defaults_first_match instEmpty).2.2.1 (by decide)
  · exact (c9_accessor_defaults_first_match instDup).2.2.2.1 []
      ⟨"Reference", "U1", 0, ⟨0, 0, 0⟩, {}⟩
      [⟨"Reference", "U2", 1, ⟨0, 0, 0⟩, {}⟩, ⟨"Value", "74HC00", 2, ⟨0, 0, 0⟩, {}⟩]
      rfl (by decide) rfl

/-- C10: `with_property` returns an instance whose property list is the old
list with every property of the same name replaced by the argument (order
preserved), or with the argument appended when no property of that name
existed; every other field is unchanged. -/
theorem c10_with_property_spec (s : SymbolInstance) (prop : Property) :
    (s.with_property prop).properties =
      (if s.properties.any (fun q => q.name == prop.name) then
        s.properties.map (fun q => if q.name = prop.name then prop else q)
      else s.properties ++ [prop]) ∧
    (s.with_property prop).lib_id = s.lib_id ∧
    (s.with_property prop).position = s.position ∧
    (s.with_property prop).unit = s.unit ∧
    (s.with_property prop).mirror = s.mirror ∧
    (s.with_property prop).pins = s.pins ∧
    (s.with_property prop).uuid = s.uuid ∧
    (s.with_property prop).in_bom = s.in_bom ∧
    (s.with_property prop).on_board = s.on_board :=
  ⟨withPropLoop_notfound prop s.properties, rfl, rfl, rfl, rfl, rfl, rfl, rfl, rfl⟩

/-- C6 amended: the indices come from `rsplit("_", 2)` plus integer parsing
with partial-assignment `try` semantics: fewer than three segments, or a
non-numeric second-to-last segment, give (1, 1); a numeric second-to-last
segment is kept as the unit index even when the last segment fails to
parse, in which case only the style index defaults to 1; decode never
fails on the name. -/
theorem c6_unit_indices_amended (name : String) (children : List SExpr) (u : SymbolUnit)
    (h : parse_symbol_unit (.atom "symbol" :: .atom name :: children) = .ok u) :
    u.name = name ∧
    ((pyRsplit2 name '_').length < 3 → u.unit_index = 1 ∧ u.style_index = 1) ∧
    ((pyRsplit2 name '_').length ≥ 3 →
      pyInt ((pyRsplit2 name '_').getD ((pyRsplit2 name '_').length - 2) "") = none →
      u.unit_index = 1 ∧ u.style_index = 1) ∧
    (∀ a, (pyRsplit2 name '_').length ≥ 3 →
      pyInt ((pyRsplit2 name '_').getD ((pyRsplit2 name '_').length - 2) "") = some a →
      u.unit_index = a ∧
      (pyInt ((pyRsplit2 name '_').getD ((pyRsplit2 name '_').length - 1) "") = none →
        u.style_index = 1) ∧
      (∀ b, pyInt ((pyRsplit2 name '_').getD ((pyRsplit2 name '_').length - 1) "") = some b →
        u.style_index = b)) := by
  have hfields : u.name = name ∧ u.unit_index = (unit_indices name).1 ∧
      u.style_index = (unit_indices name).2 := by
    unfold parse_symbol_unit at h
    cases hc : unitChildren children with
    | error m =>
      rw [show ((SExpr.atom "symbol" :: SExpr.atom name :: children).drop 2) = children from
        rfl, hc] at h
      simp [Bind.bind, Except.bind] at h
    | ok pr =>
      obtain ⟨pins, gfx⟩ := pr
      rw [show ((SExpr.atom "symbol" :: SExpr.atom name :: children).drop 2) = children from
        rfl, hc] at h
      simp only [Bind.bind, Except.bind, pure, Except.pure, Except.ok.injEq] at h
      subst h
      refine ⟨?_, ?_, ?_⟩ <;> simp
  obtain ⟨hn, hui, hsi⟩ := hfields
  refine ⟨hn, ?_, ?_, ?_⟩
  · intro hlen
    rw [hui, hsi]
    unfold unit_indices
    rw [if_neg (by omega)]
    exact ⟨rfl, rfl⟩
  · intro hlen hnone
    rw [hui, hsi]
    unfold unit_indices
    rw [if_pos (by omega)]
    rw [hnone]
    exact ⟨rfl, rfl⟩
  · intro a hlen hsome
    refine ⟨?_, ?_, ?_⟩
    · rw [hui]
      unfold unit_indices
      rw [if_pos (by omega), hsome]
      cases pyInt ((pyRsplit2 name '_').getD ((pyRsplit2 name '_').length - 1) "") <;> rfl
    · intro hnone2
      rw [hsi]
      unfold unit_indices
      rw [if_pos (by omega), hsome, hnone2]
    · intro b hsome2
      rw [hsi]
      unfold unit_indices
      rw [if_pos (by omega), hsome, hsome2]

/-- C6 witness: for the unit name `Sym_7_x` decode succeeds with unit index
7 (the parsed second-to-last segment) and style index 1 (default after the
failing `x`). -/
theorem c6_unit_indices_witness :
    ∃ u : SymbolUnit, parse_symbol_unit [SExpr.atom "symbol", .atom "Sym_7_x"] = .ok u ∧
      u.unit_index = 7 ∧ u.style_index = 1 := by
  have hp : parse_symbol_unit [SExpr.atom "symbol", .atom "Sym_7_x"] =
      .ok { name := "Sym_7_x", unit_index := 7, style_index := 1,
            pins := [], graphics := [] } := by decide
  have h := c6_unit_indices_amended "Sym_7_x" [] _ hp
  exact ⟨_, hp, (h.2.2.2 7 (by decide) (by decide)).1,
    (h.2.2.2 7 (by decide) (by decide)).2.1 (by decide)⟩

theorem tokenizeLoop_nil (fuel l c : Nat) : tokenizeLoop (fuel + 1) [] l c = .ok [] := rfl

theorem readStringLoop_escape (u : List Char) :
    ∀ (rest : List Char) (l c : Nat) (acc : List Char) (sl sc : Nat),
      ∃ l' c', readStringLoop sl sc (escapeList u ++ '"' :: rest) l c acc =
        .ok (⟨.STRING, String.mk (acc.reverse ++ u), sl, sc⟩, rest, l', c') := by
  induction u with
  | nil =>
    intro rest l c acc sl sc
    refine ⟨advLine '"' l, advCol '"' c, ?_⟩
    rw [show escapeList [] ++ '"' :: rest = '"' :: rest from rfl, readStringLoop.eq_def]
    simp
  | cons ch u' ih =>
    intro rest l c acc sl sc
    by_cases h1 : ch = '"'
    · subst h1
      obtain ⟨l', c', hrec⟩ := ih rest (advLine '"' (advLine '\\' l))
        (advCol '"' (advCol '\\' c)) ('"' :: acc) sl sc
      refine ⟨l', c', ?_⟩
      rw [show escapeList ('"' :: u') ++ '"' :: rest =
        '\\' :: '"' :: (escapeList u' ++ '"' :: rest) from rfl, readStringLoop.eq_def]
      simp [hrec]
    · by_cases h2 : ch = '\\'
      · subst h2
        obtain ⟨l', c', hrec⟩ := ih rest (advLine '\\' (advLine '\\' l))
          (advCol '\\' (advCol '\\' c)) ('\\' :: acc) sl sc
        refine ⟨l', c', ?_⟩
        rw [show escapeList ('\\' :: u') ++ '"' :: rest =
          '\\' :: '\\' :: (escapeList u' ++ '"' :: rest) from rfl, readStringLoop.eq_def]
        simp [hrec]
      · by_cases h3 : ch = '\n'
        · subst h3
          obtain ⟨l', c', hrec⟩ := ih rest (advLine 'n' (advLine '\\' l))
            (advCol 'n' (advCol '\\' c)) ('\n' :: acc) sl sc
          refine ⟨l', c', ?_⟩
          rw [show escapeList ('\n' :: u') ++ '"' :: rest =
            '\\' :: 'n' :: (escapeList u' ++ '"' :: rest) from rfl, readStringLoop.eq_def]
          simp [hrec]
        · by_cases h4 : ch = '\r'
          · subst h4
            obtain ⟨l', c', hrec⟩ := ih rest (advLine 'r' (advLine '\\' l))
              (advCol 'r' (advCol '\\' c)) ('\r' :: acc) sl sc
            refine ⟨l', c', ?_⟩
            rw [show escapeList ('\r' :: u') ++ '"' :: rest =
              '\\' :: 'r' :: (escapeList u' ++ '"' :: rest) from rfl, readStringLoop.eq_def]
            simp [hrec]
          · by_cases h5 : ch = '\t'
            · subst h5
              obtain ⟨l', c', hrec⟩ := ih rest (advLine 't' (advLine '\\' l))
                (advCol 't' (advCol '\\' c)) ('\t' :: acc) sl sc
              refine ⟨l', c', ?_⟩
              rw [show escapeList ('\t' :: u') ++ '"' :: rest =
                '\\' :: 't' :: (escapeList u' ++ '"' :: rest) from rfl, readStringLoop.eq_def]
              simp [hrec]
            · obtain ⟨l', c', hrec⟩ := ih rest (advLine ch l) (advCol ch c) (ch :: acc) sl sc
              refine ⟨l', c', ?_⟩
              rw [show escapeList (ch :: u') ++ '"' :: rest =
                escapeChar ch ++ (escapeList u' ++ '"' :: rest) from by simp [escapeList],
                show escapeChar ch = [ch] from by simp [escapeChar, h1, h2, h3, h4, h5],
                show ([ch] : List Char) ++ (escapeList u' ++ '"' :: rest) =
                  ch :: (escapeList u' ++ '"' :: rest) from rfl,
                readStringLoop.eq_def]
              simp [hrec, h1, h2]

theorem tokenize_quoted (u : List Char) (fuel : Nat) :
    tokenizeLoop (fuel + 2) ('"' :: (escapeList u ++ ['"'])) 1 1 =
      .ok [⟨.STRING, String.mk u, 1, 1⟩] := by
  obtain ⟨l', c', hrec⟩ := readStringLoop_escape u [] (advLine '"' 1) (advCol '"' 1) [] 1 1
  have hskip : skipWs false ('"' :: (escapeList u ++ ['"'])) 1 1 =
      ('"' :: (escapeList u ++ ['"']), 1, 1) := by
    rw [skipWs.eq_def]
    simp [isWsChar]
  rw [tokenizeLoop.eq_def]
  simp [hskip, hrec, tokenizeLoop_nil]

/-- C7: for every atom string containing a quote, a newline and a
backslash, writing the atom (which quotes and escapes it) and re-parsing
the written text yields back exactly the original atom. -/
theorem c7_escape_roundtrip (s : String) (h1 : '"' ∈ s.data) (h2 : '\n' ∈ s.data)
    (h3 : '\\' ∈ s.data) : parse_sexpr (format_atom s) = .ok (.atom s) := by
  have hq : needs_quoting s = true := by
    simp only [needs_quoting, Bool.or_eq_true, List.any_eq_true]
    exact Or.inr ⟨'"', h1, by decide⟩
  have hdata : (format_atom s).data = '"' :: (escapeList s.data ++ ['"']) := by
    rw [format_atom, if_pos hq]
    rfl
  have hlen : (format_atom s).data.length + 1 = ((escapeList s.data).length + 1) + 2 := by
    rw [hdata]
    simp
  have htok : tokenize (format_atom s) = .ok [⟨.STRING, String.mk s.data, 1, 1⟩] := by
    rw [tokenize, hlen, hdata]
    exact tokenize_quoted s.data ((escapeList s.data).length + 1)
  rw [parse_sexpr.eq_def, htok]
  show Except.ok (SExpr.atom (String.mk s.data)) = Except.ok (SExpr.atom s)
  rfl

/-- C7 witness: the round trip at the concrete atom `a"b<newline>c\d`. -/
theorem c7_escape_roundtrip_witness :
    parse_sexpr (format_atom "a\"b\nc\\d") = .ok (.atom "a\"b\nc\\d") :=
  c7_escape_roundtrip "a\"b\nc\\d" (by decide) (by decide) (by decide)

theorem readStringLoop_unterminated :
    ∀ (n : Nat) (s : List Char), s.length ≤ n → unterminated s = true →
      ∀ (l c : Nat) (acc : List Char) (sl sc : Nat),
        readStringLoop sl sc s l c acc = .error ⟨"Unterminated string", sl, sc⟩ := by
  intro n
  induction n with
  | zero =>
    intro s hlen _ l c acc sl sc
    have : s = [] := List.eq_nil_of_length_eq_zero (by omega)
    subst this
    rfl
  | succ k ih =>
    intro s hlen hunt l c acc sl sc
    cases s with
    | nil => rfl
    | cons ch rest =>
      by_cases h1 : ch = '"'
      · subst h1
        rw [unterminated.eq_def] at hunt
        simp at hunt
      · by_cases h2 : ch = '\\'
        · subst h2
          rw [unterminated.eq_def] at hunt
          simp at hunt
          cases rest with
          | nil =>
            rw [readStringLoop.eq_def]
            simp
          | cons e rest' =>
            simp at hunt
            rw [readStringLoop.eq_def]
            simp
            apply ih rest' (by simp at hlen; omega) hunt
        · rw [unterminated.eq_def] at hunt
          simp [h1, h2] at hunt
          rw [readStringLoop.eq_def]
          simp [h1, h2]
          apply ih rest (by simp at hlen; omega) hunt

theorem posAfter_append (xs ys : List Char) (l c : Nat) :
    posAfter (xs ++ ys) l c = posAfter ys (posAfter xs l c).1 (posAfter xs l c).2 := by
  induction xs generalizing l c with
  | nil => rfl
  | cons x xs ih =>
    rw [List.cons_append, posAfter.eq_def]
    simp only []
    rw [ih]
    rfl

theorem readAtomLoop_spec :
    ∀ (t : List Char) (l c : Nat) (acc : List Char),
      readAtomLoop t l c acc =
        (t.dropWhile (fun ch => !isAtomStop ch),
         (posAfter (t.takeWhile (fun ch => !isAtomStop ch)) l c).1,
         (posAfter (t.takeWhile (fun ch => !isAtomStop ch)) l c).2,
         (t.takeWhile (fun ch => !isAtomStop ch)).reverse ++ acc) := by
  intro t
  induction t with
  | nil => intro l c acc; rfl
  | cons ch rest ih =>
    intro l c acc
    by_cases h : isAtomStop ch
    · rw [readAtomLoop.eq_def]
      simp [h, List.dropWhile_cons, List.takeWhile_cons, posAfter]
    · rw [readAtomLoop.eq_def]
      simp only [List.dropWhile_cons, List.takeWhile_cons, h, Bool.not_false, if_neg,
        Bool.false_eq_true, if_true]
      simp [h, ih, posAfter]

theorem skipWs_no_op (a : Char) (T : List Char) (l c : Nat)
    (hws : isWsChar a = false) (hsemi : a ≠ ';') :
    skipWs false (a :: T) l c = (a :: T, l, c) := by
  rw [skipWs.eq_def]
  simp [hws, hsemi]

theorem tokenizeLoop_ws_step (a : Char) (ha : isWsChar a = true) (T : List Char)
    (fuel l c : Nat) :
    tokenizeLoop (fuel + 1) (a :: T) l c =
      tokenizeLoop (fuel + 1) T (advLine a l) (advCol a c) := by
  rw [tokenizeLoop.eq_2, tokenizeLoop.eq_2]
  have hskip : skipWs false (a :: T) l c = skipWs false T (advLine a l) (advCol a c) := by
    rw [skipWs.eq_def]
    simp [ha]
  rw [hskip]

theorem takeWhile_stop_append (p' s : List Char) :
    (p' ++ '"' :: s).takeWhile (fun ch => !isAtomStop ch) =
      p'.takeWhile (fun ch => !isAtomStop ch) ∧
    (p' ++ '"' :: s).dropWhile (fun ch => !isAtomStop ch) =
      p'.dropWhile (fun ch => !isAtomStop ch) ++ '"' :: s := by
  have hq : (!isAtomStop '"') = false := rfl
  induction p' with
  | nil =>
    constructor
    · simp [List.takeWhile_cons, hq]
    · simp [List.dropWhile_cons, hq]
  | cons a p' ih =>
    by_cases h : isAtomStop a
    · constructor
      · simp [List.takeWhile_cons, h]
      · simp [List.dropWhile_cons, h]
    · constructor
      · simp [List.takeWhile_cons, h, ih.1]
      · simp [List.dropWhile_cons, h, ih.2]

theorem tokenizeLoop_quote_head (s : List Char) (hs : unterminated s = true)
    (fuel l c : Nat) (hfuel : ('"' :: s).length < fuel) :
    tokenizeLoop fuel ('"' :: s) l c = .error ⟨"Unterminated string", l, c⟩ := by
  obtain ⟨f, rfl⟩ : ∃ f, fuel = f + 1 := ⟨fuel - 1, by omega⟩
  rw [tokenizeLoop.eq_2]
  rw [skipWs_no_op '"' s l c (by decide) (by decide)]
  have hstr := readStringLoop_unterminated s.length s (le_refl _) hs
    (advLine '"' l) (advCol '"' c) [] l c
  simp [hstr]

theorem tokenizeLoop_unterminated :
    ∀ (n : Nat) (p : List Char), p.length ≤ n →
    (∀ ch ∈ p, ch ≠ '"' ∧ ch ≠ ';') →
    ∀ (s : List Char), unterminated s = true →
    ∀ (fuel l c : Nat), (p ++ '"' :: s).length < fuel →
      tokenizeLoop fuel (p ++ '"' :: s) l c =
        .error ⟨"Unterminated string", (posAfter p l c).1, (posAfter p l c).2⟩ := by
  intro n
  induction n with
  | zero =>
    intro p hlen hp s hs fuel l c hfuel
    have hp0 : p = [] := List.eq_nil_of_length_eq_zero (by omega)
    subst hp0
    simpa [posAfter] using tokenizeLoop_quote_head s hs fuel l c (by simpa using hfuel)
  | succ k ih =>
    intro p hlen hp s hs fuel l c hfuel
    cases p with
    | nil =>
      simpa [posAfter] using tokenizeLoop_quote_head s hs fuel l c (by simpa using hfuel)
    | cons a p' =>
      obtain ⟨f, rfl⟩ : ∃ f, fuel = f + 1 := ⟨fuel - 1, by omega⟩
      have ha := hp a (by simp)
      have hlen' : p'.length ≤ k := by simp at hlen; omega
      have hp' : ∀ ch ∈ p', ch ≠ '"' ∧ ch ≠ ';' := fun ch hch => hp ch (by simp [hch])
      by_cases hws : isWsChar a = true
      · rw [List.cons_append, tokenizeLoop_ws_step a hws]
        rw [ih p' hlen' hp' s hs (f + 1) (advLine a l) (advCol a c)
          (by simp at hfuel ⊢; omega)]
        rfl
      · by_cases hpar : a = '('
        · subst hpar
          rw [List.cons_append, tokenizeLoop.eq_2]
          rw [skipWs_no_op '(' _ l c (by decide) (by decide)]
          have hrec := ih p' hlen' hp' s hs f l (c + 1) (by simp at hfuel ⊢; omega)
          simp [hrec]
          constructor
          · rfl
          · rfl
        · by_cases hpar2 : a = ')'
          · subst hpar2
            rw [List.cons_append, tokenizeLoop.eq_2]
            rw [skipWs_no_op ')' _ l c (by decide) (by decide)]
            have hrec := ih p' hlen' hp' s hs f l (c + 1) (by simp at hfuel ⊢; omega)
            simp [hrec]
            constructor
            · rfl
            · rfl
          · rw [List.cons_append, tokenizeLoop.eq_2]
            rw [skipWs_no_op a _ l c (Bool.eq_false_iff.mpr hws) ha.2]
            have hspec := readAtomLoop_spec (p' ++ '"' :: s) (advLine a l) (advCol a c) [a]
            obtain ⟨htake, hdrop⟩ := takeWhile_stop_append p' s
            rw [htake, hdrop] at hspec
            have hrlen : (p'.dropWhile (fun ch => !isAtomStop ch)).length ≤ p'.length :=
              (List.dropWhile_sublist _).length_le
            have hrec := ih (p'.dropWhile (fun ch => !isAtomStop ch)) (by omega)
              (fun ch hch => hp' ch ((List.dropWhile_sublist _).subset hch)) s hs f
              (posAfter (p'.takeWhile (fun ch => !isAtomStop ch)) (advLine a l) (advCol a c)).1
              (posAfter (p'.takeWhile (fun ch => !isAtomStop ch)) (advLine a l) (advCol a c)).2
              (by simp at hfuel ⊢; omega)
            simp [hspec, hpar, hpar2, ha.1, hrec]
            have hqr : p'.takeWhile (fun ch => !isAtomStop ch) ++
                p'.dropWhile (fun ch => !isAtomStop ch) = p' :=
              List.takeWhile_append_dropWhile _ p'
            have hpos : ∀ X Y : Nat, posAfter p' X Y =
                posAfter (p'.dropWhile (fun ch => !isAtomStop ch))
                  (posAfter (p'.takeWhile (fun ch => !isAtomStop ch)) X Y).1
                  (posAfter (p'.takeWhile (fun ch => !isAtomStop ch)) X Y).2 := by
              intro X Y
              conv_lhs => rw [← hqr]
              rw [posAfter_append]
            constructor
            · rw [show posAfter (a :: p') l c = posAfter p' (advLine a l) (advCol a c) from rfl,
                hpos (advLine a l) (advCol a c)]
            · rw [show posAfter (a :: p') l c = posAfter p' (advLine a l) (advCol a c) from rfl,
                hpos (advLine a l) (advCol a c)]

/-- C5: for every input text consisting of a prefix free of quote and
comment characters followed by a quoted string that reaches end of input
before a closing quote, tokenization fails with message "Unterminated
string" at the line and column of the string's opening quote. -/
theorem c5_unterminated_string_error (p s : List Char)
    (hp : ∀ ch ∈ p, ch ≠ '"' ∧ ch ≠ ';') (hs : unterminated s = true) :
    tokenize (String.mk (p ++ '"' :: s)) =
      .error ⟨"Unterminated string", (posAfter p 1 1).1, (posAfter p 1 1).2⟩ := by
  rw [tokenize]
  exact tokenizeLoop_unterminated p.length p (le_refl _) hp s hs _ 1 1
    (Nat.lt_succ_self _)

/-- C5 witness: the spec's own example `(foo "bar` fails at line 1,
column 6 — the opening quote's position. -/
theorem c5_unterminated_witness :
    tokenize "(foo \"bar" = .error ⟨"Unterminated string", 1, 6⟩ := by
  have h := c5_unterminated_string_error ['(', 'f', 'o', 'o', ' '] ['b', 'a', 'r']
    (by decide) (by decide)
  exact h

end Kicad

